import Mathlib

/-!
Shallow embedding of `src/process/parse_doc_direct.py`: the address resolver
`extract_adresses_commune` and the document field aggregator `parse_arrete`,
parameterised over the external collaborators (entity detectors, geo lookups,
normalisers, the page-structure parser) which the module imports from other
packages. Machine effects are made explicit: logging is dropped (it never
changes control flow), exceptions become `Except`, Python dicts become
structures whose `Option` fields model key absence.
-/

/-- Python truthiness of an optional string: `None` and `""` are falsy. -/
def truthy : Option String → Bool
  | none => false
  | some s => !s.isEmpty

/-- One decomposed address candidate inside an address zone, as returned by
the external detector `get_adr_doc` (the fields `num`, `ind`, `voie`,
`compl`, `cpostal`, `ville`, after stripping the `adr_` prefixes). -/
structure AdrCand where
  num : Option String
  ind : Option String
  voie : Option String
  compl : Option String
  cpostal : Option String
  ville : Option String
deriving DecidableEq

/-- An address zone recognised in a page body: the raw zone text and its
decomposed candidate addresses. -/
structure AdrZone where
  adresse_brute : String
  adresses : List AdrCand
deriving DecidableEq

/-- A resolved address dict as built by `extract_adresses_commune`. -/
structure Adresse where
  ad_brute : String
  num : Option String
  ind : Option String
  voie : Option String
  compl : Option String
  cpostal : Option String
  ville : Option String
  adresse : String
  codeinsee : Option String
deriving DecidableEq

/-- A classified span (`span_typ`, `span_txt`) of one page, from the external
page parser `parse_arrete_pages`. -/
structure SpanInfo where
  span_typ : String
  span_txt : String
deriving DecidableEq

/-- A span with its 1-based page number attached (an entry of `pages_cont`). -/
structure SpanP where
  page_num : Nat
  span_typ : String
  span_txt : String
deriving DecidableEq

/-- Parsed content of one page: its text body and its classified spans. -/
structure PageContent where
  body : String
  content : List SpanInfo
deriving DecidableEq

/-- The external collaborators of `parse_doc_direct.py`. The module under
verification is parameterised over them. The two fallible ones return
`Except`: `get_codeinsee` may raise `AssertionError` (re-raised by the
caller) and `create_adresse_normalisee` raises on incoherent input. -/
structure Env where
  get_adr_doc : String → List AdrZone := fun _ => []
  determine_commune : Option String → Option String → Option String := fun v _ => v
  get_codeinsee : Option String → Option String → Except String (Option String) :=
    fun _ _ => .ok none
  get_codepostal : Option String → Option String → Option String := fun _ _ => none
  create_adresse_normalisee : Option String → Option String → Option String →
    Option String → Option String → Option String → Except String String :=
    fun _ _ _ _ _ _ => .ok ""
  get_classe : String → Option String := fun _ => none
  get_urgence : String → Option String := fun _ => none
  get_demo : String → Option String := fun _ => none
  get_int_hab : String → Option String := fun _ => none
  get_equ_com : String → Option String := fun _ => none
  get_proprio : String → Option String := fun _ => none
  get_syndic : String → Option String := fun _ => none
  get_gest : String → Option String := fun _ => none
  get_parcelle : String → Option String := fun _ => none
  generate_refcadastrale_norm : Option String → String → String → Option String → String :=
    fun _ p _ _ => p
  normalize_string : String → String := fun s => s
  process_date_brute : String → String := fun s => s
  parse_arrete_pages : String → List String → List PageContent :=
    fun _ pages => pages.map (fun b => { body := b, content := [] })
  accuse : String → Bool := fun _ => false

/-- One iteration of the address loop of `extract_adresses_commune`:
reconcile the municipality with the hint, resolve the INSEE code (an
`AssertionError` from `get_codeinsee` is printed and re-raised, hence
propagates), derive a missing postal code from the INSEE code, build the
normalised address string (its coherence failure propagates), and attach the
INSEE code. -/
def resolveAdresse (env : Env) (commune_maire : Option String) (ad_brute : String)
    (a : AdrCand) : Except String Adresse := do
  let ville := env.determine_commune a.ville commune_maire
  let codeinsee ← env.get_codeinsee ville a.cpostal
  let cpostal := if truthy a.cpostal then a.cpostal else env.get_codepostal ville codeinsee
  let adresse ← env.create_adresse_normalisee a.num a.ind a.voie a.compl cpostal ville
  .ok { ad_brute := ad_brute, num := a.num, ind := a.ind, voie := a.voie,
        compl := a.compl, cpostal := cpostal, ville := ville,
        adresse := adresse, codeinsee := codeinsee }

/-- The address loop of `extract_adresses_commune` over the candidates of the
first zone: Python mutates each dict in turn and an exception aborts the
whole call, i.e. sequential traversal in `Except`. -/
def resolveAll (env : Env) (commune_maire : Option String) (ad_brute : String) :
    List AdrCand → Except String (List Adresse)
  | [] => .ok []
  | c :: cs => do
    let a ← resolveAdresse env commune_maire ad_brute c
    let rest ← resolveAll env commune_maire ad_brute cs
    .ok (a :: rest)

/-- `extract_adresses_commune(fn_pdf, pg_txt_body, commune_maire)`: take the
first recognised address zone of the page (if any), expand its candidates and
resolve each of them. `fn_pdf` is only used in log messages. -/
def extract_adresses_commune (env : Env) (fn_pdf : String) (pg_txt_body : String)
    (commune_maire : Option String) : Except String (List Adresse) :=
  match env.get_adr_doc pg_txt_body with
  | [] => .ok []
  | adr0 :: _ => resolveAll env commune_maire adr0.adresse_brute adr0.adresses

/-- The `arretes` dict. `none` in the outer `Option` means the key is absent;
for the classification-family fields and `codeinsee` the stored Python value
may itself be `None`, hence the nested `Option`. -/
structure Arretes where
  date : Option String := none
  num_arr : Option String := none
  nom_arr : Option String := none
  classe : Option (Option String) := none
  urgence : Option (Option String) := none
  demo : Option (Option String) := none
  int_hab : Option (Option String) := none
  equ_com : Option (Option String) := none
  pdf : Option String := none
  url : Option String := none
  codeinsee : Option (Option String) := none
deriving DecidableEq

/-- Python dict truthiness of `arretes`: empty iff no key was ever set. -/
def Arretes.isEmpty (a : Arretes) : Bool :=
  a.date.isNone && a.num_arr.isNone && a.nom_arr.isNone && a.classe.isNone &&
  a.urgence.isNone && a.demo.isNone && a.int_hab.isNone && a.equ_com.isNone &&
  a.pdf.isNone && a.url.isNone && a.codeinsee.isNone

/-- `set.add` on a model of a Python string set that remembers insertion
order: insert only when absent. -/
def addToSet (s : List String) (x : String) : List String :=
  if x ∈ s then s else s ++ [x]

/-- The per-document mutable state of `parse_arrete`'s page loop. -/
structure LoopState where
  adresses : List Adresse := []
  arretes : Arretes := {}
  proprios : List String := []
  syndics : List String := []
  gests : List String := []
  parcelles : List String := []
  codeinsee : Option String := none
  cpostal : Option String := none
deriving DecidableEq

/-- Address block of the page loop: runs only while `adresses` is still
empty; when the page yields addresses it extends `adresses` and fixes
`codeinsee`/`cpostal` from `adresses[0]` (which is the head of the new
addresses, `adresses` being empty before the `extend`). -/
def stepAdresses (env : Env) (fn_pdf : String) (hint : Option String) (s : LoopState)
    (body : String) : Except String LoopState :=
  if s.adresses.isEmpty then do
    let pg ← extract_adresses_commune env fn_pdf body hint
    match pg with
    | [] => .ok s
    | a0 :: _ =>
      .ok { s with adresses := s.adresses ++ pg,
                   codeinsee := a0.codeinsee, cpostal := a0.cpostal }
  else .ok s

/-- A guarded dict write `if key not in arretes: arretes[key] = v` for the
keys whose stored Python value may itself be `None`. -/
def setIfAbsent (cur : Option (Option String)) (v : Option String) : Option (Option String) :=
  if cur.isNone then some v else cur

/-- Order-record block of the page loop: each key is written at most once
(`if key not in arretes`), on the first page with a non-empty body, with
whatever the detector returns there — possibly `None`, which still creates
the key. The source's eight guarded assignments write distinct keys, so they
are one simultaneous record update. -/
def stepArretes (env : Env) (fn_pdf url : String) (s : LoopState) (body : String) :
    LoopState :=
  { s with arretes :=
    { s.arretes with
      classe := setIfAbsent s.arretes.classe (env.get_classe body)
      urgence := setIfAbsent s.arretes.urgence (env.get_urgence body)
      demo := setIfAbsent s.arretes.demo (env.get_demo body)
      int_hab := setIfAbsent s.arretes.int_hab (env.get_int_hab body)
      equ_com := setIfAbsent s.arretes.equ_com (env.get_equ_com body)
      pdf := if s.arretes.pdf.isNone then some fn_pdf else s.arretes.pdf
      url := if s.arretes.url.isNone then some url else s.arretes.url
      codeinsee := setIfAbsent s.arretes.codeinsee s.codeinsee } }

/-- A detector hit (`is not None`, not truthiness) is normalised and added to
its deduplicating set; no hit leaves the set unchanged. -/
def addDet (cur : List String) (norm : String → String) : Option String → List String
  | some p => addToSet cur (norm p)
  | none => cur

/-- Notified-parties block of the page loop: the three detectors feed their
three sets; the three guarded updates touch distinct fields, so they are one
simultaneous record update. -/
def stepNotifies (env : Env) (s : LoopState) (body : String) : LoopState :=
  { s with proprios := addDet s.proprios env.normalize_string (env.get_proprio body)
           syndics := addDet s.syndics env.normalize_string (env.get_syndic body)
           gests := addDet s.gests env.normalize_string (env.get_gest body) }

/-- Parcel set update: a truthy parcel detection is normalised with the
current (possibly still null) INSEE and postal codes and united into the
parcel set. -/
def parcUpdate (env : Env) (fn_pdf : String) (s : LoopState) : Option String → List String
  | some pstr =>
    if pstr.isEmpty then s.parcelles
    else addToSet s.parcelles (env.generate_refcadastrale_norm s.codeinsee pstr fn_pdf s.cpostal)
  | none => s.parcelles

/-- Parcel block of the page loop. -/
def stepParcelles (env : Env) (fn_pdf : String) (s : LoopState) (body : String) :
    LoopState :=
  { s with parcelles := parcUpdate env fn_pdf s (env.get_parcelle body) }

/-- One iteration of `parse_arrete`'s `for pg_txt_body in pages_body` loop;
pages with an empty body are skipped entirely. The blocks run in source
order: addresses, order record, notified parties, parcels. -/
def processPage (env : Env) (fn_pdf url : String) (hint : Option String) (s : LoopState)
    (body : String) : Except String LoopState :=
  if body.isEmpty then .ok s
  else do
    let s1 ← stepAdresses env fn_pdf hint s body
    .ok (stepParcelles env fn_pdf (stepNotifies env (stepArretes env fn_pdf url s1 body) body) body)

/-- The whole page loop, in page order. -/
def runPages (env : Env) (fn_pdf url : String) (hint : Option String) :
    LoopState → List String → Except String LoopState
  | s, [] => .ok s
  | s, b :: bs => do
    let s1 ← processPage env fn_pdf url hint s b
    runPages env fn_pdf url hint s1 bs

/-- `enumerate(doc_content, start=1)` plus flattening: every span tagged with
its 1-based page number (`pages_cont`). -/
def attachPages : Nat → List PageContent → List SpanP
  | _, [] => []
  | n, pc :: rest =>
    pc.content.map (fun sp => { page_num := n, span_typ := sp.span_typ, span_txt := sp.span_txt })
      ++ attachPages (n + 1) rest

/-- Page filtering: an acknowledgment-of-receipt page keeps its slot but its
text is replaced by the empty string. -/
def filtPages (env : Env) (pages : List String) : List String :=
  pages.map (fun x => if env.accuse x then "" else x)

/-- `doc_content`: the external page-structure parser on the filtered pages. -/
def docContent (env : Env) (fn_pdf : String) (pages : List String) : List PageContent :=
  env.parse_arrete_pages fn_pdf (filtPages env pages)

/-- `pages_body`: the body of each parsed page. -/
def bodiesOf (env : Env) (fn_pdf : String) (pages : List String) : List String :=
  (docContent env fn_pdf pages).map (fun pc => pc.body)

/-- `pages_cont`: the flat classified triple sequence of the document. -/
def spansOf (env : Env) (fn_pdf : String) (pages : List String) : List SpanP :=
  attachPages 1 (docContent env fn_pdf pages)

/-- `adr_commune_maire`: the first `adr_ville` span, normalised; `None` when
there is no such span. -/
def hintOf (env : Env) (fn_pdf : String) (pages : List String) : Option String :=
  match (spansOf env fn_pdf pages).filter (fun x => x.span_typ == "adr_ville") with
  | [] => none
  | x :: _ => some (env.normalize_string x.span_txt)

/-- The scalar order fields `date`, `num_arr`, `nom_arr`, set from the first
matching span of the flat classified sequence before the page loop; the
three guarded assignments write distinct keys, so they are one simultaneous
record construction (all other keys stay absent). -/
def initArretes (env : Env) (spans : List SpanP) : Arretes :=
  { date := match (spans.filter (fun x => x.span_typ == "arr_date")).map
        (fun x => env.process_date_brute x.span_txt) with
      | [] => none
      | d :: _ => some (env.normalize_string d)
    num_arr := match spans.filter (fun x => x.span_typ == "num_arr") with
      | [] => none
      | x :: _ => some (env.normalize_string x.span_txt)
    nom_arr := match spans.filter (fun x => x.span_typ == "nom_arr") with
      | [] => none
      | x :: _ => some (env.normalize_string x.span_txt) }

/-- One row of the notified-parties output. -/
structure Notifie where
  id_proprio : Option String
  proprio : String
  id_syndic : Option String
  syndic : String
  id_gest : Option String
  gest : String
  codeinsee : Option String
deriving DecidableEq

/-- One row of the parcel output. -/
structure Parcelle where
  ref_cad : String
  codeinsee : Option String
deriving DecidableEq

/-- The `doc_data` result of `parse_arrete`. -/
structure DocData where
  adresses : List Adresse
  arretes : List Arretes
  notifies : List Notifie
  parcelles : List Parcelle
deriving DecidableEq

/-- The final `doc_data` construction: fallback to a minimal order record if
no key was ever set; exactly one notified record whose id fields are the
first elements of the sets (or `None`); parcel rows all tagged with the final
document INSEE code. -/
def finalizeDoc (fn_pdf url : String) (st : LoopState) : DocData :=
  let ar := if st.arretes.isEmpty then { pdf := some fn_pdf, url := some url } else st.arretes
  { adresses := st.adresses
    arretes := [ar]
    notifies := [{ id_proprio := st.proprios.head?, proprio := "TODO_proprio",
                   id_syndic := st.syndics.head?, syndic := "TODO_syndic",
                   id_gest := st.gests.head?, gest := "TODO_gest",
                   codeinsee := st.codeinsee }]
    parcelles := st.parcelles.map (fun x => { ref_cad := x, codeinsee := st.codeinsee }) }

/-- `parse_arrete(fp_pdf_in, fp_txt_in)`, with the loaded page texts and the
PDF name / source reference as inputs and the external collaborators in
`env`. If no page is truthy the function short-circuits to the minimal stub
result without invoking any collaborator. -/
def parse_arrete (env : Env) (fn_pdf url : String) (pages : List String) :
    Except String DocData :=
  if !(pages.any (fun p => !p.isEmpty)) then
    .ok { adresses := []
          arretes := [{ pdf := some fn_pdf, url := some url }]
          notifies := []
          parcelles := [] }
  else
    match runPages env fn_pdf url (hintOf env fn_pdf pages)
        { arretes := initArretes env (spansOf env fn_pdf pages) }
        (bodiesOf env fn_pdf pages) with
    | .error e => .error e
    | .ok st => .ok (finalizeDoc fn_pdf url st)

/-- The initial loop state of `parse_arrete`, before the page loop. -/
def initState (env : Env) (fn_pdf : String) (pages : List String) : LoopState :=
  { arretes := initArretes env (spansOf env fn_pdf pages) }

def envC1 : Env := { get_classe := fun b => if b == "b" then some "CL" else none }

def emptyDoc : DocData := { adresses := [], arretes := [], notifies := [], parcelles := [] }

def docC1 : DocData := (parse_arrete envC1 "f" "u" ["a", "b"]).toOption.getD emptyDoc

def envC3 : Env := {}

def docC3 : DocData := (parse_arrete envC3 "f" "u" ["x"]).toOption.getD emptyDoc

def docC3min : DocData := (parse_arrete envC3 "f" "u" [""]).toOption.getD emptyDoc

def envC2 : Env := { get_adr_doc := fun _ => [{ adresse_brute := "z", adresses :=
  [{ num := some "12", ind := none, voie := some "rue X", compl := none,
     cpostal := none, ville := some "Marseille" }] }] }

/-- The first-found address policy as the amended claim states it: scan the
page bodies in order; the first non-empty body whose extraction (of its
first zone only) yields at least one address provides all of the document's
addresses, and later pages are never consulted for addresses. -/
def firstFoundAdresses (env : Env) (fn_pdf : String) (hint : Option String) :
    List String → Except String (List Adresse)
  | [] => .ok []
  | b :: bs =>
    if b.isEmpty then firstFoundAdresses env fn_pdf hint bs
    else
      match extract_adresses_commune env fn_pdf b hint with
      | .error e => .error e
      | .ok [] => firstFoundAdresses env fn_pdf hint bs
      | .ok (a0 :: rest) => .ok (a0 :: rest)

def candX : AdrCand :=
  { num := some "12", ind := none, voie := some "rue X",
    compl := none, cpostal := some "13001", ville := some "Marseille" }

def envC5 : Env :=
  { get_adr_doc := fun b =>
      if b == "a" then [{ adresse_brute := "z1", adresses := [] }]
      else if b == "b" then [{ adresse_brute := "z2", adresses := [candX] }] else []
    get_codeinsee := fun _ _ => .ok (some "13201")
    create_adresse_normalisee := fun _ _ _ _ _ _ => .ok "12 rue X 13001 Marseille" }

def docC5 : DocData := (parse_arrete envC5 "f" "u" ["a", "b"]).toOption.getD emptyDoc

def envC7 : Env :=
  { get_adr_doc := fun _ => [{ adresse_brute := "z", adresses := [candX] }]
    create_adresse_normalisee := fun _ _ _ _ _ _ => .error "incoherent address" }

def envC8 : Env := { get_proprio := fun _ => some "Dupont" }

def stC8 : LoopState :=
  (runPages envC8 "f" "u" (hintOf envC8 "f" ["p1", "p2"]) (initState envC8 "f" ["p1", "p2"])
    (bodiesOf envC8 "f" ["p1", "p2"])).toOption.getD {}

def docC9 : DocData := (parse_arrete envC3 "f" "u" ["a"]).toOption.getD emptyDoc

def envC10 : Env :=
  { get_adr_doc := fun b =>
      if b == "b" then [{ adresse_brute := "z2", adresses := [candX] }] else []
    get_codeinsee := fun _ _ => .ok (some "13201")
    create_adresse_normalisee := fun _ _ _ _ _ _ => .ok "12 rue X 13001 Marseille"
    get_parcelle := fun b => if b == "a" then some "P1" else none }

def docC10 : DocData := (parse_arrete envC10 "f" "u" ["a", "b"]).toOption.getD emptyDoc

def envC6 : Env :=
  { parse_arrete_pages := fun _ pages => pages.map (fun b =>
      { body := b
        content := if b == "p1" then
            [{ span_typ := "arr_date", span_txt := "1 janvier 2023" },
             { span_typ := "num_arr", span_txt := "N42" }]
          else [] }) }

def docC6 : DocData := (parse_arrete envC6 "f" "u" ["p1", "x"]).toOption.getD emptyDoc

def docC6b : DocData := (parse_arrete envC6 "f" "u" ["p1", "y"]).toOption.getD emptyDoc

theorem bind_eq_ok {α β : Type} {x : Except String α} {f : α → Except String β} {b : β}
    (h : x >>= f = .ok b) : ∃ a, x = .ok a ∧ f a = .ok b := by
  cases x with
  | error e => exact Except.noConfusion h
  | ok a => exact ⟨a, rfl, h⟩

theorem runPages_nil (env : Env) (fn_pdf url : String) (hint : Option String)
    (s : LoopState) : runPages env fn_pdf url hint s [] = .ok s := rfl

theorem runPages_cons (env : Env) (fn_pdf url : String) (hint : Option String)
    (s : LoopState) (b : String) (bs : List String) :
    runPages env fn_pdf url hint s (b :: bs) =
      (processPage env fn_pdf url hint s b) >>= fun s1 => runPages env fn_pdf url hint s1 bs := rfl

theorem runPages_cons_ok {env : Env} {fn_pdf url : String} {hint : Option String}
    {s : LoopState} {b : String} {bs : List String} {st : LoopState}
    (h : runPages env fn_pdf url hint s (b :: bs) = .ok st) :
    ∃ s1, processPage env fn_pdf url hint s b = .ok s1 ∧
      runPages env fn_pdf url hint s1 bs = .ok st := by
  rw [runPages_cons] at h
  exact bind_eq_ok h

theorem processPage_empty {env : Env} {fn_pdf url : String} {hint : Option String}
    {s : LoopState} {b : String} (hb : b.isEmpty = true) :
    processPage env fn_pdf url hint s b = .ok s := by
  simp [processPage, hb]

theorem processPage_ok_elim {env : Env} {fn_pdf url : String} {hint : Option String}
    {s st : LoopState} {b : String}
    (hb : b.isEmpty = false)
    (h : processPage env fn_pdf url hint s b = .ok st) :
    ∃ s1, stepAdresses env fn_pdf hint s b = .ok s1 ∧
      st = stepParcelles env fn_pdf (stepNotifies env (stepArretes env fn_pdf url s1 b) b) b := by
  rw [processPage] at h
  simp only [hb, Bool.false_eq_true, if_false] at h
  obtain ⟨s1, h1, h2⟩ := bind_eq_ok h
  refine ⟨s1, h1, ?_⟩
  injection h2 with h2
  exact h2.symm

theorem stepAdresses_elim {env : Env} {fn_pdf : String} {hint : Option String}
    {s s1 : LoopState} {b : String}
    (h : stepAdresses env fn_pdf hint s b = .ok s1) :
    (¬s.adresses.isEmpty ∧ s1 = s) ∨
    (s.adresses.isEmpty ∧ ∃ pg, extract_adresses_commune env fn_pdf b hint = .ok pg ∧
      ((pg = [] ∧ s1 = s) ∨
       (∃ a0 rest, pg = a0 :: rest ∧
         s1 = { s with adresses := s.adresses ++ pg,
                       codeinsee := a0.codeinsee, cpostal := a0.cpostal }))) := by
  unfold stepAdresses at h
  by_cases he : s.adresses.isEmpty
  · simp only [he, if_true] at h
    obtain ⟨pg, hpg, h2⟩ := bind_eq_ok h
    refine Or.inr ⟨he, pg, hpg, ?_⟩
    cases pg with
    | nil =>
      injection h2 with h2
      exact Or.inl ⟨rfl, h2.symm⟩
    | cons a0 rest =>
      injection h2 with h2
      exact Or.inr ⟨a0, rest, rfl, h2.symm⟩
  · simp only [he, if_false] at h
    injection h with h
    exact Or.inl ⟨he, h.symm⟩

@[simp] theorem setIfAbsent_none (v : Option String) : setIfAbsent none v = some v := rfl

@[simp] theorem setIfAbsent_some (w v : Option String) : setIfAbsent (some w) v = some w := rfl

theorem setIfAbsent_isSome (cur : Option (Option String)) (v : Option String) :
    (setIfAbsent cur v).isSome := by
  cases cur <;> simp [setIfAbsent]

@[simp] theorem stepArretes_adresses (env : Env) (f u : String) (s : LoopState) (b : String) :
    (stepArretes env f u s b).adresses = s.adresses := rfl

@[simp] theorem stepArretes_codeinsee (env : Env) (f u : String) (s : LoopState) (b : String) :
    (stepArretes env f u s b).codeinsee = s.codeinsee := rfl

@[simp] theorem stepArretes_cpostal (env : Env) (f u : String) (s : LoopState) (b : String) :
    (stepArretes env f u s b).cpostal = s.cpostal := rfl

@[simp] theorem stepArretes_proprios (env : Env) (f u : String) (s : LoopState) (b : String) :
    (stepArretes env f u s b).proprios = s.proprios := rfl

@[simp] theorem stepArretes_syndics (env : Env) (f u : String) (s : LoopState) (b : String) :
    (stepArretes env f u s b).syndics = s.syndics := rfl

@[simp] theorem stepArretes_gests (env : Env) (f u : String) (s : LoopState) (b : String) :
    (stepArretes env f u s b).gests = s.gests := rfl

@[simp] theorem stepArretes_parcelles (env : Env) (f u : String) (s : LoopState) (b : String) :
    (stepArretes env f u s b).parcelles = s.parcelles := rfl

@[simp] theorem stepArretes_date (env : Env) (f u : String) (s : LoopState) (b : String) :
    (stepArretes env f u s b).arretes.date = s.arretes.date := rfl

@[simp] theorem stepArretes_num_arr (env : Env) (f u : String) (s : LoopState) (b : String) :
    (stepArretes env f u s b).arretes.num_arr = s.arretes.num_arr := rfl

@[simp] theorem stepArretes_nom_arr (env : Env) (f u : String) (s : LoopState) (b : String) :
    (stepArretes env f u s b).arretes.nom_arr = s.arretes.nom_arr := rfl

@[simp] theorem stepArretes_classe (env : Env) (f u : String) (s : LoopState) (b : String) :
    (stepArretes env f u s b).arretes.classe = setIfAbsent s.arretes.classe (env.get_classe b) := rfl

@[simp] theorem stepArretes_urgence (env : Env) (f u : String) (s : LoopState) (b : String) :
    (stepArretes env f u s b).arretes.urgence = setIfAbsent s.arretes.urgence (env.get_urgence b) := rfl

@[simp] theorem stepArretes_demo (env : Env) (f u : String) (s : LoopState) (b : String) :
    (stepArretes env f u s b).arretes.demo = setIfAbsent s.arretes.demo (env.get_demo b) := rfl

@[simp] theorem stepArretes_int_hab (env : Env) (f u : String) (s : LoopState) (b : String) :
    (stepArretes env f u s b).arretes.int_hab = setIfAbsent s.arretes.int_hab (env.get_int_hab b) := rfl

@[simp] theorem stepArretes_equ_com (env : Env) (f u : String) (s : LoopState) (b : String) :
    (stepArretes env f u s b).arretes.equ_com = setIfAbsent s.arretes.equ_com (env.get_equ_com b) := rfl

@[simp] theorem stepNotifies_adresses (env : Env) (s : LoopState) (b : String) :
    (stepNotifies env s b).adresses = s.adresses := rfl

@[simp] theorem stepNotifies_arretes (env : Env) (s : LoopState) (b : String) :
    (stepNotifies env s b).arretes = s.arretes := rfl

@[simp] theorem stepNotifies_codeinsee (env : Env) (s : LoopState) (b : String) :
    (stepNotifies env s b).codeinsee = s.codeinsee := rfl

@[simp] theorem stepNotifies_cpostal (env : Env) (s : LoopState) (b : String) :
    (stepNotifies env s b).cpostal = s.cpostal := rfl

@[simp] theorem stepNotifies_parcelles (env : Env) (s : LoopState) (b : String) :
    (stepNotifies env s b).parcelles = s.parcelles := rfl

@[simp] theorem stepNotifies_proprios (env : Env) (s : LoopState) (b : String) :
    (stepNotifies env s b).proprios = addDet s.proprios env.normalize_string (env.get_proprio b) := rfl

@[simp] theorem stepNotifies_syndics (env : Env) (s : LoopState) (b : String) :
    (stepNotifies env s b).syndics = addDet s.syndics env.normalize_string (env.get_syndic b) := rfl

@[simp] theorem stepNotifies_gests (env : Env) (s : LoopState) (b : String) :
    (stepNotifies env s b).gests = addDet s.gests env.normalize_string (env.get_gest b) := rfl

@[simp] theorem stepParcelles_adresses (env : Env) (f : String) (s : LoopState) (b : String) :
    (stepParcelles env f s b).adresses = s.adresses := rfl

@[simp] theorem stepParcelles_arretes (env : Env) (f : String) (s : LoopState) (b : String) :
    (stepParcelles env f s b).arretes = s.arretes := rfl

@[simp] theorem stepParcelles_codeinsee (env : Env) (f : String) (s : LoopState) (b : String) :
    (stepParcelles env f s b).codeinsee = s.codeinsee := rfl

@[simp] theorem stepParcelles_cpostal (env : Env) (f : String) (s : LoopState) (b : String) :
    (stepParcelles env f s b).cpostal = s.cpostal := rfl

@[simp] theorem stepParcelles_proprios (env : Env) (f : String) (s : LoopState) (b : String) :
    (stepParcelles env f s b).proprios = s.proprios := rfl

@[simp] theorem stepParcelles_syndics (env : Env) (f : String) (s : LoopState) (b : String) :
    (stepParcelles env f s b).syndics = s.syndics := rfl

@[simp] theorem stepParcelles_gests (env : Env) (f : String) (s : LoopState) (b : String) :
    (stepParcelles env f s b).gests = s.gests := rfl

@[simp] theorem stepParcelles_parcelles (env : Env) (f : String) (s : LoopState) (b : String) :
    (stepParcelles env f s b).parcelles = parcUpdate env f s (env.get_parcelle b) := rfl

theorem mem_addToSet_self (l : List String) (x : String) : x ∈ addToSet l x := by
  unfold addToSet
  by_cases h : x ∈ l <;> simp [h]

theorem mem_addToSet_of_mem {l : List String} {y : String} (x : String) (h : y ∈ l) :
    y ∈ addToSet l x := by
  unfold addToSet
  by_cases hx : x ∈ l <;> simp [hx, h]

theorem nodup_addToSet {l : List String} (x : String) (h : l.Nodup) :
    (addToSet l x).Nodup := by
  unfold addToSet
  by_cases hx : x ∈ l
  · simpa [hx]
  · simp [hx, List.nodup_append, h]

theorem mem_addDet_of_mem {l : List String} {y : String} (norm : String → String)
    (det : Option String) (h : y ∈ l) : y ∈ addDet l norm det := by
  cases det with
  | none => exact h
  | some p => exact mem_addToSet_of_mem _ h

theorem nodup_addDet {l : List String} (norm : String → String) (det : Option String)
    (h : l.Nodup) : (addDet l norm det).Nodup := by
  cases det with
  | none => exact h
  | some p => exact nodup_addToSet _ h

theorem nodup_parcUpdate (env : Env) (f : String) (s : LoopState) (det : Option String)
    (h : s.parcelles.Nodup) : (parcUpdate env f s det).Nodup := by
  cases det with
  | none => exact h
  | some p =>
    unfold parcUpdate
    by_cases hp : p.isEmpty <;> simp [hp, h, nodup_addToSet]

theorem runPages_inv {env : Env} {fn_pdf url : String} {hint : Option String}
    (P : LoopState → Prop)
    (hstep : ∀ s b s1, P s → processPage env fn_pdf url hint s b = .ok s1 → P s1) :
    ∀ {bodies : List String} {s st : LoopState}, P s →
      runPages env fn_pdf url hint s bodies = .ok st → P st := by
  intro bodies
  induction bodies with
  | nil =>
    intro s st hP h
    rw [runPages_nil] at h
    injection h with h
    exact h ▸ hP
  | cons b bs ih =>
    intro s st hP h
    obtain ⟨s1, h1, h2⟩ := runPages_cons_ok h
    exact ih (hstep s b s1 hP h1) h2

theorem stepAdresses_pure {env : Env} {fn_pdf : String} {hint : Option String}
    {s s1 : LoopState} {b : String}
    (h : stepAdresses env fn_pdf hint s b = .ok s1) :
    s1.arretes = s.arretes ∧ s1.proprios = s.proprios ∧ s1.syndics = s.syndics ∧
    s1.gests = s.gests ∧ s1.parcelles = s.parcelles := by
  rcases stepAdresses_elim h with ⟨-, rfl⟩ | ⟨-, pg, -, ⟨-, rfl⟩ | ⟨a0, rest, -, rfl⟩⟩ <;>
    exact ⟨rfl, rfl, rfl, rfl, rfl⟩

theorem stepAdresses_frozen {env : Env} {fn_pdf : String} {hint : Option String}
    {s s1 : LoopState} {b : String}
    (hne : ¬s.adresses.isEmpty)
    (h : stepAdresses env fn_pdf hint s b = .ok s1) : s1 = s := by
  rcases stepAdresses_elim h with ⟨-, rfl⟩ | ⟨he, -⟩
  · rfl
  · exact absurd he hne

theorem processPage_addr_frozen {env : Env} {fn_pdf url : String} {hint : Option String}
    {s st : LoopState} {b : String}
    (hne : ¬s.adresses.isEmpty)
    (h : processPage env fn_pdf url hint s b = .ok st) :
    st.adresses = s.adresses ∧ st.codeinsee = s.codeinsee ∧ st.cpostal = s.cpostal := by
  by_cases hb : b.isEmpty
  · rw [processPage_empty hb] at h
    injection h with h
    exact h ▸ ⟨rfl, rfl, rfl⟩
  · obtain ⟨s1, h1, rfl⟩ := processPage_ok_elim (by simpa using hb) h
    have h2 := stepAdresses_frozen hne h1
    subst h2
    simp

theorem processPage_scalar {env : Env} {fn_pdf url : String} {hint : Option String}
    {s st : LoopState} {b : String}
    (h : processPage env fn_pdf url hint s b = .ok st) :
    st.arretes.date = s.arretes.date ∧ st.arretes.num_arr = s.arretes.num_arr ∧
    st.arretes.nom_arr = s.arretes.nom_arr := by
  by_cases hb : b.isEmpty
  · rw [processPage_empty hb] at h
    injection h with h
    exact h ▸ ⟨rfl, rfl, rfl⟩
  · obtain ⟨s1, h1, rfl⟩ := processPage_ok_elim (by simpa using hb) h
    have h2 := (stepAdresses_pure h1).1
    simp [h2]

theorem parse_arrete_elim {env : Env} {fn_pdf url : String} {pages : List String}
    {d : DocData}
    (hp : pages.any (fun p => !p.isEmpty) = true)
    (h : parse_arrete env fn_pdf url pages = .ok d) :
    ∃ st, runPages env fn_pdf url (hintOf env fn_pdf pages)
        (initState env fn_pdf pages) (bodiesOf env fn_pdf pages) = .ok st ∧
      d = finalizeDoc fn_pdf url st := by
  rw [parse_arrete] at h
  simp only [hp, Bool.not_true, if_false] at h
  cases hr : runPages env fn_pdf url (hintOf env fn_pdf pages)
      { arretes := initArretes env (spansOf env fn_pdf pages) } (bodiesOf env fn_pdf pages) with
  | error e => rw [hr] at h; exact Except.noConfusion h
  | ok st =>
    rw [hr] at h
    injection h with h
    exact ⟨st, hr, h.symm⟩

theorem processPage_addr_inv {env : Env} {fn_pdf url : String} {hint : Option String}
    {s st : LoopState} {b : String}
    (hinv : s.codeinsee = s.adresses.head?.bind (fun a => a.codeinsee) ∧
            s.cpostal = s.adresses.head?.bind (fun a => a.cpostal))
    (h : processPage env fn_pdf url hint s b = .ok st) :
    st.codeinsee = st.adresses.head?.bind (fun a => a.codeinsee) ∧
    st.cpostal = st.adresses.head?.bind (fun a => a.cpostal) := by
  by_cases hb : b.isEmpty
  · rw [processPage_empty hb] at h
    injection h with h
    exact h ▸ hinv
  · obtain ⟨s1, h1, rfl⟩ := processPage_ok_elim (by simpa using hb) h
    rcases stepAdresses_elim h1 with ⟨-, rfl⟩ | ⟨he, pg, -, ⟨-, rfl⟩ | ⟨a0, rest, rfl, rfl⟩⟩
    · simpa using hinv
    · simpa using hinv
    · have hemp : s.adresses = [] := by
        cases hl : s.adresses with
        | nil => rfl
        | cons x xs => rw [hl] at he; exact absurd he (by simp)
      simp [hemp]

theorem runPages_addr_inv {env : Env} {fn_pdf url : String} {hint : Option String}
    {bodies : List String} {s st : LoopState}
    (hinv : s.codeinsee = s.adresses.head?.bind (fun a => a.codeinsee) ∧
            s.cpostal = s.adresses.head?.bind (fun a => a.cpostal))
    (h : runPages env fn_pdf url hint s bodies = .ok st) :
    st.codeinsee = st.adresses.head?.bind (fun a => a.codeinsee) ∧
    st.cpostal = st.adresses.head?.bind (fun a => a.cpostal) :=
  runPages_inv (fun s => s.codeinsee = s.adresses.head?.bind (fun a => a.codeinsee) ∧
      s.cpostal = s.adresses.head?.bind (fun a => a.cpostal))
    (fun _ _ _ hP h1 => processPage_addr_inv hP h1) hinv h

/-- After the first page with a non-empty body has been processed, each
classification-family key holds `some v` and keeps it forever. -/
theorem runPages_classif_frozen {env : Env} {fn_pdf url : String} {hint : Option String}
    {bodies : List String} {s st : LoopState} {v1 v2 v3 v4 v5 : Option String}
    (hfr : s.arretes.classe = some v1 ∧ s.arretes.urgence = some v2 ∧
           s.arretes.demo = some v3 ∧ s.arretes.int_hab = some v4 ∧
           s.arretes.equ_com = some v5)
    (h : runPages env fn_pdf url hint s bodies = .ok st) :
    st.arretes.classe = some v1 ∧ st.arretes.urgence = some v2 ∧
    st.arretes.demo = some v3 ∧ st.arretes.int_hab = some v4 ∧
    st.arretes.equ_com = some v5 := by
  refine runPages_inv (fun s => s.arretes.classe = some v1 ∧ s.arretes.urgence = some v2 ∧
      s.arretes.demo = some v3 ∧ s.arretes.int_hab = some v4 ∧
      s.arretes.equ_com = some v5) ?_ hfr h
  intro s b s1 hP hpp
  by_cases hb : b.isEmpty
  · rw [processPage_empty hb] at hpp
    injection hpp with hpp
    exact hpp ▸ hP
  · obtain ⟨s2, h1, rfl⟩ := processPage_ok_elim (by simpa using hb) hpp
    have h2 := (stepAdresses_pure h1).1
    obtain ⟨p1, p2, p3, p4, p5⟩ := hP
    simp [h2, p1, p2, p3, p4, p5]

/-- The classification-family fields are written at the first page with a
non-empty body, with whatever the detectors return there. -/
theorem runPages_classif_first {env : Env} {fn_pdf url : String} {hint : Option String} :
    ∀ {bodies : List String} {s st : LoopState} {b : String},
      s.arretes.classe = none → s.arretes.urgence = none → s.arretes.demo = none →
      s.arretes.int_hab = none → s.arretes.equ_com = none →
      bodies.find? (fun x => !x.isEmpty) = some b →
      runPages env fn_pdf url hint s bodies = .ok st →
      st.arretes.classe = some (env.get_classe b) ∧
      st.arretes.urgence = some (env.get_urgence b) ∧
      st.arretes.demo = some (env.get_demo b) ∧
      st.arretes.int_hab = some (env.get_int_hab b) ∧
      st.arretes.equ_com = some (env.get_equ_com b) := by
  intro bodies
  induction bodies with
  | nil => intro s st b _ _ _ _ _ hf _; exact absurd hf (by simp)
  | cons b0 bs ih =>
    intro s st b h1 h2 h3 h4 h5 hf h
    obtain ⟨s1, hpp, hrest⟩ := runPages_cons_ok h
    by_cases hb : b0.isEmpty
    · rw [List.find?_cons_of_neg _ (by simp [hb])] at hf
      rw [processPage_empty hb] at hpp
      injection hpp with hpp
      subst hpp
      exact ih h1 h2 h3 h4 h5 hf hrest
    · rw [List.find?_cons_of_pos _ (by simp [hb])] at hf
      injection hf with hf
      subst hf
      obtain ⟨s2, ha, rfl⟩ := processPage_ok_elim (by simpa using hb) hpp
      have h2a := (stepAdresses_pure ha).1
      refine runPages_classif_frozen ?_ hrest
      refine ⟨?_, ?_, ?_, ?_, ?_⟩ <;>
        simp [h2a, h1, h2, h3, h4, h5]

theorem arretes_isEmpty_false_of_classe {a : Arretes} {v : Option String}
    (h : a.classe = some v) : a.isEmpty = false := by
  simp [Arretes.isEmpty, h]

theorem finalizeDoc_arretes_of_nonempty {fn_pdf url : String} {st : LoopState}
    (h : st.arretes.isEmpty = false) :
    (finalizeDoc fn_pdf url st).arretes = [st.arretes] := by
  simp [finalizeDoc, h]

/-- Claim C1 counterexample: with a detector that is empty on page 1 and
non-empty on page 2 (both pages having non-empty bodies), the document's
final `classe` value is the frozen empty detection of page 1 (`some none`),
not the later non-empty detection, refuting the claim as stated. -/
theorem C1_counterexample :
    envC1.get_classe "a" = none ∧ envC1.get_classe "b" = some "CL" ∧
    parse_arrete envC1 "f" "u" ["a", "b"] = .ok docC1 ∧
    docC1.arretes.map (fun a => a.classe) = [some none] ∧
    docC1.arretes.map (fun a => a.classe) ≠ [some (some "CL")] :=
  ⟨rfl, rfl, rfl, rfl, by decide⟩

/-- Claim C1 (amended): for every classification-family field (`classe`,
`urgence`, `demo`, `int_hab`, `equ_com`), the key is written on the first
page with a non-empty body, with whatever the detector returns there — even
an empty/absent detection — and that value is frozen for the remainder of
the document; a later non-empty detection never overrides it. -/
theorem C1_classification_freeze (env : Env) (fn_pdf url : String) (pages : List String)
    (d : DocData) (b : String)
    (hok : parse_arrete env fn_pdf url pages = .ok d)
    (hp : pages.any (fun p => !p.isEmpty) = true)
    (hb : (bodiesOf env fn_pdf pages).find? (fun x => !x.isEmpty) = some b) :
    d.arretes.map (fun a => (a.classe, a.urgence, a.demo, a.int_hab, a.equ_com)) =
      [(some (env.get_classe b), some (env.get_urgence b), some (env.get_demo b),
        some (env.get_int_hab b), some (env.get_equ_com b))] := by
  obtain ⟨st, hr, rfl⟩ := parse_arrete_elim hp hok
  obtain ⟨c1, c2, c3, c4, c5⟩ := runPages_classif_first rfl rfl rfl rfl rfl hb hr
  rw [finalizeDoc_arretes_of_nonempty (arretes_isEmpty_false_of_classe c1)]
  simp [c1, c2, c3, c4, c5]

/-- Witness for the amended C1 at a concrete document. -/
theorem C1_classification_freeze_witness :
    docC1.arretes.map (fun a => (a.classe, a.urgence, a.demo, a.int_hab, a.equ_com)) =
      [(some (envC1.get_classe "a"), some (envC1.get_urgence "a"), some (envC1.get_demo "a"),
        some (envC1.get_int_hab "a"), some (envC1.get_equ_com "a"))] :=
  C1_classification_freeze envC1 "f" "u" ["a", "b"] docC1 "a" rfl rfl rfl

theorem ok_bind {α β : Type} (a : α) (f : α → Except String β) :
    (Except.ok a : Except String α) >>= f = f a := rfl

theorem error_bind {α β : Type} (e : String) (f : α → Except String β) :
    (Except.error e : Except String α) >>= f = .error e := rfl

theorem processPage_nonempty {env : Env} {fn_pdf url : String} {hint : Option String}
    {s : LoopState} {b : String} (hb : b.isEmpty = false) :
    processPage env fn_pdf url hint s b =
      (stepAdresses env fn_pdf hint s b) >>= fun s1 =>
        .ok (stepParcelles env fn_pdf (stepNotifies env (stepArretes env fn_pdf url s1 b) b) b) := by
  rw [processPage]
  simp [hb]

theorem stepAdresses_of_empty {env : Env} {fn_pdf : String} {hint : Option String}
    {s : LoopState} {b : String} (he : s.adresses = []) :
    stepAdresses env fn_pdf hint s b =
      (extract_adresses_commune env fn_pdf b hint) >>= fun pg =>
        match pg with
        | [] => .ok s
        | a0 :: _ => .ok { s with adresses := s.adresses ++ pg,
                                  codeinsee := a0.codeinsee, cpostal := a0.cpostal } := by
  rw [stepAdresses]
  simp [he]

theorem stepAdresses_of_nonempty {env : Env} {fn_pdf : String} {hint : Option String}
    {s : LoopState} {b : String} (he : ¬s.adresses.isEmpty) :
    stepAdresses env fn_pdf hint s b = .ok s := by
  rw [stepAdresses]
  simp [he]

theorem runPages_all_empty {env : Env} {fn_pdf url : String} {hint : Option String} :
    ∀ {bodies : List String} {s st : LoopState}, (∀ b ∈ bodies, b = "") →
      runPages env fn_pdf url hint s bodies = .ok st → st = s := by
  intro bodies
  induction bodies with
  | nil =>
    intro s st _ h
    rw [runPages_nil] at h
    injection h with h
    exact h.symm
  | cons b bs ih =>
    intro s st hall h
    obtain ⟨s1, hpp, hrest⟩ := runPages_cons_ok h
    have hb : b.isEmpty = true := by rw [hall b (by simp)]; rfl
    rw [processPage_empty hb] at hpp
    injection hpp with hpp
    subst hpp
    exact ih (fun x hx => hall x (by simp [hx])) hrest

/-- Claim C4: a document whose pages all have empty text short-circuits
without raising, to exactly one order record containing only filename and
reference, with empty address, notified-parties and parcel collections. -/
theorem C4_empty_document (env : Env) (fn_pdf url : String) (pages : List String)
    (h : ∀ p ∈ pages, p = "") :
    parse_arrete env fn_pdf url pages = .ok
      { adresses := [], arretes := [{ pdf := some fn_pdf, url := some url }],
        notifies := [], parcelles := [] } := by
  have hp : pages.any (fun p => !p.isEmpty) = false := by
    rw [List.any_eq_false]
    intro p hps
    rw [h p hps]
    decide
  rw [parse_arrete]
  simp [hp]

/-- Witness for C4 on a concrete two-page empty document. -/
theorem C4_empty_document_witness :
    parse_arrete envC1 "f" "u" ["", ""] = .ok
      { adresses := [], arretes := [{ pdf := some "f", url := some "u" }],
        notifies := [], parcelles := [] } :=
  C4_empty_document envC1 "f" "u" ["", ""] (by decide)

/-- Claim C3 counterexample: a one-page document with a non-empty body and
no classified spans populates no scalar order field, yet its order record
carries the classification-family keys and the INSEE key (with `None`
values) besides filename and reference, refuting the claim as stated. -/
theorem C3_counterexample :
    parse_arrete envC3 "f" "u" ["x"] = .ok docC3 ∧
    docC3.arretes.map (fun a => (a.date, a.num_arr, a.nom_arr)) = [(none, none, none)] ∧
    docC3.arretes ≠ [{ pdf := some "f", url := some "u" }] :=
  ⟨rfl, rfl, by decide⟩

theorem initArretes_all_none {env : Env} {spans : List SpanP}
    (h1 : spans.filter (fun x => x.span_typ == "arr_date") = [])
    (h2 : spans.filter (fun x => x.span_typ == "num_arr") = [])
    (h3 : spans.filter (fun x => x.span_typ == "nom_arr") = []) :
    initArretes env spans = {} := by
  simp [initArretes, h1, h2, h3]

/-- Claim C3 (amended): the minimal fallback record carrying only the
source filename and the source reference is returned exactly when no order
field at all was ever populated: no date / order-number / title span in the
classified sequence and no page with a non-empty body. -/
theorem C3_minimal_fallback (env : Env) (fn_pdf url : String) (pages : List String)
    (d : DocData)
    (hok : parse_arrete env fn_pdf url pages = .ok d)
    (hsp : ∀ x ∈ spansOf env fn_pdf pages,
      x.span_typ ≠ "arr_date" ∧ x.span_typ ≠ "num_arr" ∧ x.span_typ ≠ "nom_arr")
    (hbod : ∀ b ∈ bodiesOf env fn_pdf pages, b = "") :
    d.arretes = [{ pdf := some fn_pdf, url := some url }] := by
  cases hp : pages.any (fun p => !p.isEmpty) with
  | false =>
    rw [parse_arrete] at hok
    simp only [hp, Bool.not_false, if_true] at hok
    injection hok with hok
    rw [← hok]
  | true =>
    obtain ⟨st, hr, rfl⟩ := parse_arrete_elim hp hok
    have hst := runPages_all_empty hbod hr
    subst hst
    have hinit : initArretes env (spansOf env fn_pdf pages) = {} := by
      refine initArretes_all_none ?_ ?_ ?_ <;>
        · rw [List.filter_eq_nil_iff]
          intro x hx
          simp only [beq_iff_eq]
          first
            | exact (hsp x hx).1
            | exact (hsp x hx).2.1
            | exact (hsp x hx).2.2
    simp [finalizeDoc, initState, hinit, Arretes.isEmpty]

/-- Witness for the amended C3 at a concrete document. -/
theorem C3_minimal_fallback_witness :
    docC3min.arretes = [{ pdf := some "f", url := some "u" }] :=
  C3_minimal_fallback envC3 "f" "u" [""] docC3min rfl
    (fun x hx => absurd (show x ∈ ([] : List SpanP) from hx) (List.not_mem_nil x))
    (fun b hb => List.eq_of_mem_singleton (show b ∈ [""] from hb))


theorem resolveAdresse_ok_none {env : Env} {hint : Option String} {brute : String} {c : AdrCand}
    (hins : ∀ v cp, env.get_codeinsee v cp = .ok none)
    (hcr : ∀ n i vo co cp vi, ∃ s, env.create_adresse_normalisee n i vo co cp vi = .ok s) :
    ∃ r, resolveAdresse env hint brute c = .ok r ∧ r.codeinsee = none := by
  simp only [resolveAdresse]
  rw [hins, ok_bind]
  obtain ⟨s, hs⟩ := hcr c.num c.ind c.voie c.compl
    (if truthy c.cpostal then c.cpostal else
      env.get_codepostal (env.determine_commune c.ville hint) none)
    (env.determine_commune c.ville hint)
  rw [hs, ok_bind]
  exact ⟨_, rfl, rfl⟩

theorem resolveAll_ok_none {env : Env} {hint : Option String} {brute : String}
    (hins : ∀ v cp, env.get_codeinsee v cp = .ok none)
    (hcr : ∀ n i vo co cp vi, ∃ s, env.create_adresse_normalisee n i vo co cp vi = .ok s) :
    ∀ cands, ∃ rs, resolveAll env hint brute cands = .ok rs ∧ ∀ r ∈ rs, r.codeinsee = none := by
  intro cands
  induction cands with
  | nil => exact ⟨[], rfl, by simp⟩
  | cons c cs ih =>
    obtain ⟨r, hr, hrn⟩ := resolveAdresse_ok_none (c := c) hins hcr
    obtain ⟨rs, hrs, hall⟩ := ih
    refine ⟨r :: rs, ?_, ?_⟩
    · rw [resolveAll, hr, ok_bind, hrs, ok_bind]
    · intro x hx
      rcases List.mem_cons.mp hx with rfl | hx
      · exact hrn
      · exact hall x hx

theorem extract_ok_none {env : Env} {fn_pdf body : String} {hint : Option String}
    (hins : ∀ v cp, env.get_codeinsee v cp = .ok none)
    (hcr : ∀ n i vo co cp vi, ∃ s, env.create_adresse_normalisee n i vo co cp vi = .ok s) :
    ∃ rs, extract_adresses_commune env fn_pdf body hint = .ok rs ∧
      ∀ r ∈ rs, r.codeinsee = none := by
  rw [extract_adresses_commune]
  cases env.get_adr_doc body with
  | nil => exact ⟨[], rfl, by simp⟩
  | cons z zs => exact resolveAll_ok_none hins hcr z.adresses

theorem runPages_ok_none {env : Env} {fn_pdf url : String} {hint : Option String}
    (hins : ∀ v cp, env.get_codeinsee v cp = .ok none)
    (hcr : ∀ n i vo co cp vi, ∃ s, env.create_adresse_normalisee n i vo co cp vi = .ok s) :
    ∀ (bodies : List String) (s : LoopState), (∀ a ∈ s.adresses, a.codeinsee = none) →
      ∃ st, runPages env fn_pdf url hint s bodies = .ok st ∧
        ∀ a ∈ st.adresses, a.codeinsee = none := by
  intro bodies
  induction bodies with
  | nil => intro s hs; exact ⟨s, rfl, hs⟩
  | cons b bs ih =>
    intro s hs
    by_cases hb : b.isEmpty
    · obtain ⟨st, hst, hall⟩ := ih s hs
      exact ⟨st, by rw [runPages_cons, processPage_empty hb, ok_bind]; exact hst, hall⟩
    · have hbf : b.isEmpty = false := by simpa using hb
      have step2 : ∀ s1 : LoopState, (∀ a ∈ s1.adresses, a.codeinsee = none) →
          stepAdresses env fn_pdf hint s b = .ok s1 →
          ∃ st, runPages env fn_pdf url hint s (b :: bs) = .ok st ∧
            ∀ a ∈ st.adresses, a.codeinsee = none := by
        intro s1 hs1 hsa
        obtain ⟨st, hst, hall⟩ := ih
          (stepParcelles env fn_pdf (stepNotifies env (stepArretes env fn_pdf url s1 b) b) b)
          (by simpa using hs1)
        refine ⟨st, ?_, hall⟩
        rw [runPages_cons, processPage_nonempty hbf, hsa, ok_bind, ok_bind]
        exact hst
      by_cases he : s.adresses.isEmpty
      · have hel : s.adresses = [] := by
          cases hl : s.adresses with
          | nil => rfl
          | cons x xs => rw [hl] at he; exact absurd he (by simp)
        obtain ⟨rs, hrs, hrsn⟩ := @extract_ok_none env fn_pdf b hint hins hcr
        cases rs with
        | nil =>
          refine step2 s hs ?_
          rw [stepAdresses_of_empty hel, hrs, ok_bind]
        | cons a0 rest =>
          refine step2 { s with adresses := s.adresses ++ a0 :: rest,
                                codeinsee := a0.codeinsee, cpostal := a0.cpostal } ?_ ?_
          · intro a ha
            rcases List.mem_append.mp ha with ha | ha
            · exact hs a ha
            · exact hrsn a ha
          · rw [stepAdresses_of_empty hel, hrs, ok_bind]
      · exact step2 s hs (stepAdresses_of_nonempty he)

/-- Claim C2: when every INSEE lookup is unresolvable (returns `None`
without raising) and address normalisation itself succeeds, aggregation of
the document runs to completion — no abort — and every resolved address
carries a null INSEE code. -/
theorem C2_insee_soft (env : Env) (fn_pdf url : String) (pages : List String)
    (hins : ∀ v cp, env.get_codeinsee v cp = .ok none)
    (hcr : ∀ n i vo co cp vi, ∃ s, env.create_adresse_normalisee n i vo co cp vi = .ok s) :
    ∃ d, parse_arrete env fn_pdf url pages = .ok d ∧ ∀ a ∈ d.adresses, a.codeinsee = none := by
  rw [parse_arrete]
  cases hp : pages.any (fun p => !p.isEmpty) with
  | false =>
    simp only [hp, Bool.not_false, if_true]
    exact ⟨_, rfl, by simp⟩
  | true =>
    simp only [hp, Bool.not_true, if_false]
    obtain ⟨st, hst, hall⟩ := runPages_ok_none hins hcr (bodiesOf env fn_pdf pages)
      { arretes := initArretes env (spansOf env fn_pdf pages) } (by simp)
    rw [hst]
    exact ⟨finalizeDoc fn_pdf url st, rfl, hall⟩

/-- Witness for C2 at a concrete document with one address zone. -/
theorem C2_insee_soft_witness :
    ∃ d, parse_arrete envC2 "f" "u" ["a"] = .ok d ∧ ∀ a ∈ d.adresses, a.codeinsee = none :=
  C2_insee_soft envC2 "f" "u" ["a"] (fun _ _ => rfl) (fun _ _ _ _ _ _ => ⟨"", rfl⟩)

theorem runPages_adresses_frozen {env : Env} {fn_pdf url : String} {hint : Option String}
    {bodies : List String} {s st : LoopState} {l : List Adresse}
    (hl : l ≠ []) (hs : s.adresses = l)
    (h : runPages env fn_pdf url hint s bodies = .ok st) :
    st.adresses = l := by
  refine runPages_inv (fun x => x.adresses = l) ?_ hs h
  intro s b s1 hP hpp
  have hne : ¬s.adresses.isEmpty := by
    rw [hP]
    cases l with
    | nil => exact absurd rfl hl
    | cons x xs => simp
  exact (processPage_addr_frozen hne hpp).1.trans hP

theorem runPages_firstFound {env : Env} {fn_pdf url : String} {hint : Option String} :
    ∀ {bodies : List String} {s st : LoopState}, s.adresses = [] →
      runPages env fn_pdf url hint s bodies = .ok st →
      firstFoundAdresses env fn_pdf hint bodies = .ok st.adresses := by
  intro bodies
  induction bodies with
  | nil =>
    intro s st he h
    rw [runPages_nil] at h
    injection h with h
    subst h
    rw [firstFoundAdresses, he]
  | cons b bs ih =>
    intro s st he h
    obtain ⟨s1, hpp, hrest⟩ := runPages_cons_ok h
    by_cases hb : b.isEmpty
    · rw [processPage_empty hb] at hpp
      injection hpp with hpp
      subst hpp
      rw [firstFoundAdresses]
      simp only [hb, if_true]
      exact ih he hrest
    · have hbf : b.isEmpty = false := by simpa using hb
      obtain ⟨s2, ha, rfl⟩ := processPage_ok_elim hbf hpp
      rcases stepAdresses_elim ha with ⟨hne, rfl⟩ | ⟨hemp, pg, hex, hcase⟩
      · rw [he] at hne
        exact absurd rfl hne
      · rcases hcase with ⟨rfl, rfl⟩ | ⟨a0, rest, rfl, rfl⟩
        · rw [firstFoundAdresses]
          simp only [hbf, Bool.false_eq_true, if_false, hex]
          exact ih (by simpa using he) hrest
        · rw [firstFoundAdresses]
          simp only [hbf, Bool.false_eq_true, if_false, hex]
          have hst : st.adresses = a0 :: rest := by
            refine runPages_adresses_frozen (by simp) ?_ hrest
            simp [he]
          rw [hst]

/-- Claim C5 (amended): address extraction runs only while the address
list is empty and expands only the first zone of a page; the document's
addresses are exactly those of the first non-empty page whose first zone
expands to at least one address (`firstFoundAdresses`), and the document
INSEE code used for notified parties and parcels is fixed from the first
resolved address. -/
theorem C5_first_found (env : Env) (fn_pdf url : String) (pages : List String) (d : DocData)
    (hok : parse_arrete env fn_pdf url pages = .ok d)
    (hp : pages.any (fun p => !p.isEmpty) = true) :
    firstFoundAdresses env fn_pdf (hintOf env fn_pdf pages) (bodiesOf env fn_pdf pages) =
      .ok d.adresses ∧
    (∀ n ∈ d.notifies, n.codeinsee = d.adresses.head?.bind (fun a => a.codeinsee)) ∧
    (∀ p ∈ d.parcelles, p.codeinsee = d.adresses.head?.bind (fun a => a.codeinsee)) := by
  obtain ⟨st, hr, rfl⟩ := parse_arrete_elim hp hok
  have h1 := runPages_firstFound (s := initState env fn_pdf pages) rfl hr
  have h2 := runPages_addr_inv (s := initState env fn_pdf pages) ⟨rfl, rfl⟩ hr
  refine ⟨h1, ?_, ?_⟩
  · intro n hn
    rw [show (finalizeDoc fn_pdf url st).notifies =
      [{ id_proprio := st.proprios.head?, proprio := "TODO_proprio",
         id_syndic := st.syndics.head?, syndic := "TODO_syndic",
         id_gest := st.gests.head?, gest := "TODO_gest",
         codeinsee := st.codeinsee }] from rfl] at hn
    rcases List.mem_singleton.mp hn with rfl
    exact h2.1
  · intro p hp2
    rw [show (finalizeDoc fn_pdf url st).parcelles =
      st.parcelles.map (fun x => { ref_cad := x, codeinsee := st.codeinsee }) from rfl] at hp2
    obtain ⟨x, hx, rfl⟩ := List.mem_map.mp hp2
    exact h2.1

/-- Claim C5 counterexample: both pages carry an address zone, but the
zone of the first page expands to zero addresses, so the document's
addresses come from the second page's zone (`z2`), refuting \"addresses
sourced only from the first zone-bearing page\" as stated. -/
theorem C5_counterexample :
    envC5.get_adr_doc "a" ≠ [] ∧ envC5.get_adr_doc "b" ≠ [] ∧
    (envC5.get_adr_doc "a").map (fun z => z.adresse_brute) = ["z1"] ∧
    parse_arrete envC5 "f" "u" ["a", "b"] = .ok docC5 ∧
    docC5.adresses.map (fun a => a.ad_brute) = ["z2"] :=
  ⟨by decide, by decide, rfl, rfl, rfl⟩

/-- Witness for the amended C5 at a concrete document. -/
theorem C5_first_found_witness :
    firstFoundAdresses envC5 "f" (hintOf envC5 "f" ["a", "b"]) (bodiesOf envC5 "f" ["a", "b"]) =
      .ok docC5.adresses ∧
    (∀ n ∈ docC5.notifies, n.codeinsee = docC5.adresses.head?.bind (fun a => a.codeinsee)) ∧
    (∀ p ∈ docC5.parcelles, p.codeinsee = docC5.adresses.head?.bind (fun a => a.codeinsee)) :=
  C5_first_found envC5 "f" "u" ["a", "b"] docC5 rfl rfl

theorem find?_eq_filter_head? {α : Type} (p : α → Bool) :
    ∀ l : List α, l.find? p = (l.filter p).head? := by
  intro l
  induction l with
  | nil => rfl
  | cons a l ih =>
    by_cases h : p a
    · rw [List.find?_cons_of_pos _ h, List.filter_cons_of_pos h, List.head?_cons]
    · rw [List.find?_cons_of_neg _ h, List.filter_cons_of_neg h, ih]

theorem initArretes_date (env : Env) (spans : List SpanP) :
    (initArretes env spans).date =
      (spans.find? (fun x => x.span_typ == "arr_date")).map
        (fun x => env.normalize_string (env.process_date_brute x.span_txt)) := by
  rw [find?_eq_filter_head?]
  cases hf : spans.filter (fun x => x.span_typ == "arr_date") with
  | nil => simp [initArretes, hf]
  | cons x xs => simp [initArretes, hf]

theorem initArretes_num_arr (env : Env) (spans : List SpanP) :
    (initArretes env spans).num_arr =
      (spans.find? (fun x => x.span_typ == "num_arr")).map
        (fun x => env.normalize_string x.span_txt) := by
  rw [find?_eq_filter_head?]
  cases hf : spans.filter (fun x => x.span_typ == "num_arr") with
  | nil => simp [initArretes, hf]
  | cons x xs => simp [initArretes, hf]

theorem initArretes_nom_arr (env : Env) (spans : List SpanP) :
    (initArretes env spans).nom_arr =
      (spans.find? (fun x => x.span_typ == "nom_arr")).map
        (fun x => env.normalize_string x.span_txt) := by
  rw [find?_eq_filter_head?]
  cases hf : spans.filter (fun x => x.span_typ == "nom_arr") with
  | nil => simp [initArretes, hf]
  | cons x xs => simp [initArretes, hf]

theorem runPages_scalar {env : Env} {fn_pdf url : String} {hint : Option String}
    {bodies : List String} {s st : LoopState}
    (h : runPages env fn_pdf url hint s bodies = .ok st) :
    st.arretes.date = s.arretes.date ∧ st.arretes.num_arr = s.arretes.num_arr ∧
    st.arretes.nom_arr = s.arretes.nom_arr :=
  runPages_inv (fun x => x.arretes.date = s.arretes.date ∧
      x.arretes.num_arr = s.arretes.num_arr ∧ x.arretes.nom_arr = s.arretes.nom_arr)
    (fun _ _ _ hP hpp =>
      ⟨(processPage_scalar hpp).1.trans hP.1, (processPage_scalar hpp).2.1.trans hP.2.1,
       (processPage_scalar hpp).2.2.trans hP.2.2⟩)
    ⟨rfl, rfl, rfl⟩ h

theorem arretes_isEmpty_fields {a : Arretes} (h : a.isEmpty = true) :
    a.date = none ∧ a.num_arr = none ∧ a.nom_arr = none := by
  unfold Arretes.isEmpty at h
  simp only [Bool.and_eq_true, Option.isNone_iff_eq_none] at h
  exact ⟨h.1.1.1.1.1.1.1.1.1.1, h.1.1.1.1.1.1.1.1.1.2, h.1.1.1.1.1.1.1.1.2⟩

theorem finalizeDoc_arretes_of_empty {fn_pdf url : String} {st : LoopState}
    (h : st.arretes.isEmpty = true) :
    (finalizeDoc fn_pdf url st).arretes = [{ pdf := some fn_pdf, url := some url }] := by
  simp [finalizeDoc, h]

theorem parse_scalar_formula (env : Env) (fn_pdf url : String) (pages : List String)
    (d : DocData)
    (hok : parse_arrete env fn_pdf url pages = .ok d)
    (hp : pages.any (fun p => !p.isEmpty) = true) :
    d.arretes.map (fun a => (a.date, a.num_arr, a.nom_arr)) =
      [(((spansOf env fn_pdf pages).find? (fun x => x.span_typ == "arr_date")).map
          (fun x => env.normalize_string (env.process_date_brute x.span_txt)),
        ((spansOf env fn_pdf pages).find? (fun x => x.span_typ == "num_arr")).map
          (fun x => env.normalize_string x.span_txt),
        ((spansOf env fn_pdf pages).find? (fun x => x.span_typ == "nom_arr")).map
          (fun x => env.normalize_string x.span_txt))] := by
  obtain ⟨st, hr, rfl⟩ := parse_arrete_elim hp hok
  obtain ⟨hd, hn, hm⟩ := runPages_scalar hr
  rw [show (initState env fn_pdf pages).arretes = initArretes env (spansOf env fn_pdf pages)
    from rfl] at hd hn hm
  rw [initArretes_date] at hd
  rw [initArretes_num_arr] at hn
  rw [initArretes_nom_arr] at hm
  by_cases hemp : st.arretes.isEmpty
  · obtain ⟨e1, e2, e3⟩ := arretes_isEmpty_fields hemp
    rw [finalizeDoc_arretes_of_empty hemp]
    rw [e1] at hd
    rw [e2] at hn
    rw [e3] at hm
    simp [← hd, ← hn, ← hm]
  · rw [finalizeDoc_arretes_of_nonempty (by simpa using hemp)]
    simp [hd, hn, hm]

/-- Claim C6: each scalar order field (date, order number, title) is the
normalised text of the first occurrence of its span type in the flat
classified triple sequence (the date additionally passes through the date
parser), and two documents whose classified triple sequences agree yield
identical values for these three fields regardless of other page content. -/
theorem C6_scalar_first_match (env : Env) (fn_pdf url : String)
    (pages pages2 : List String) (d d2 : DocData)
    (hok : parse_arrete env fn_pdf url pages = .ok d)
    (hp : pages.any (fun p => !p.isEmpty) = true)
    (hok2 : parse_arrete env fn_pdf url pages2 = .ok d2)
    (hp2 : pages2.any (fun p => !p.isEmpty) = true)
    (hsp : spansOf env fn_pdf pages2 = spansOf env fn_pdf pages) :
    d.arretes.map (fun a => (a.date, a.num_arr, a.nom_arr)) =
      [(((spansOf env fn_pdf pages).find? (fun x => x.span_typ == "arr_date")).map
          (fun x => env.normalize_string (env.process_date_brute x.span_txt)),
        ((spansOf env fn_pdf pages).find? (fun x => x.span_typ == "num_arr")).map
          (fun x => env.normalize_string x.span_txt),
        ((spansOf env fn_pdf pages).find? (fun x => x.span_typ == "nom_arr")).map
          (fun x => env.normalize_string x.span_txt))] ∧
    d2.arretes.map (fun a => (a.date, a.num_arr, a.nom_arr)) =
      d.arretes.map (fun a => (a.date, a.num_arr, a.nom_arr)) := by
  have h1 := parse_scalar_formula env fn_pdf url pages d hok hp
  have h2 := parse_scalar_formula env fn_pdf url pages2 d2 hok2 hp2
  rw [hsp] at h2
  exact ⟨h1, h2.trans h1.symm⟩

theorem extract_cons {env : Env} {fn_pdf body : String} {hint : Option String}
    {z : AdrZone} {rest : List AdrZone} (hz : env.get_adr_doc body = z :: rest) :
    extract_adresses_commune env fn_pdf body hint =
      resolveAll env hint z.adresse_brute z.adresses := by
  unfold extract_adresses_commune
  rw [hz]

theorem resolveAdresse_create_error {env : Env} {hint : Option String} {brute : String}
    {c : AdrCand} {e : String}
    (hins : ∀ v cp, ∃ r, env.get_codeinsee v cp = .ok r)
    (hcr : ∀ n i vo co cp vi, env.create_adresse_normalisee n i vo co cp vi = .error e) :
    resolveAdresse env hint brute c = .error e := by
  simp only [resolveAdresse]
  obtain ⟨r, hr⟩ := hins (env.determine_commune c.ville hint) c.cpostal
  rw [hr, ok_bind, hcr, error_bind]

theorem extract_create_error {env : Env} {fn_pdf body : String} {hint : Option String}
    {e : String} {z : AdrZone} {rest : List AdrZone}
    (hins : ∀ v cp, ∃ r, env.get_codeinsee v cp = .ok r)
    (hcr : ∀ n i vo co cp vi, env.create_adresse_normalisee n i vo co cp vi = .error e)
    (hz : env.get_adr_doc body = z :: rest) (hzc : z.adresses ≠ []) :
    extract_adresses_commune env fn_pdf body hint = .error e := by
  rw [extract_cons hz]
  cases hc : z.adresses with
  | nil => exact absurd hc hzc
  | cons c cs =>
    rw [resolveAll, resolveAdresse_create_error hins hcr, error_bind]

theorem runPages_first_error {env : Env} {fn_pdf url : String} {hint : Option String} :
    ∀ {bodies : List String} {s : LoopState} {b e : String},
      s.adresses = [] →
      bodies.find? (fun x => !x.isEmpty) = some b →
      extract_adresses_commune env fn_pdf b hint = .error e →
      runPages env fn_pdf url hint s bodies = .error e := by
  intro bodies
  induction bodies with
  | nil => intro s b e _ hf _; exact absurd hf (by simp)
  | cons b0 bs ih =>
    intro s b e he hf herr
    by_cases hb : b0.isEmpty
    · rw [List.find?_cons_of_neg _ (by simp [hb])] at hf
      rw [runPages_cons, processPage_empty hb, ok_bind]
      exact ih he hf herr
    · have hbf : b0.isEmpty = false := by simpa using hb
      rw [List.find?_cons_of_pos _ (by simp [hb])] at hf
      injection hf with hf
      subst hf
      rw [runPages_cons, processPage_nonempty hbf, stepAdresses_of_empty he, herr,
        error_bind, error_bind, error_bind]

/-- Claim C7: when building the normalised address string fails on
self-contradictory input (and lookups themselves do not raise), the failure
propagates out of `extract_adresses_commune` unchanged and aborts the whole
document's aggregation with the same error payload. -/
theorem C7_coherence_aborts (env : Env) (fn_pdf url : String) (pages : List String)
    (b e : String)
    (hins : ∀ v cp, ∃ r, env.get_codeinsee v cp = .ok r)
    (hcr : ∀ n i vo co cp vi, env.create_adresse_normalisee n i vo co cp vi = .error e)
    (hp : pages.any (fun p => !p.isEmpty) = true)
    (hb : (bodiesOf env fn_pdf pages).find? (fun x => !x.isEmpty) = some b)
    (hz : ∃ z rest, env.get_adr_doc b = z :: rest ∧ z.adresses ≠ []) :
    extract_adresses_commune env fn_pdf b (hintOf env fn_pdf pages) = .error e ∧
    parse_arrete env fn_pdf url pages = .error e := by
  obtain ⟨z, rest, hz1, hz2⟩ := hz
  have hex : extract_adresses_commune env fn_pdf b (hintOf env fn_pdf pages) = .error e :=
    extract_create_error hins hcr hz1 hz2
  refine ⟨hex, ?_⟩
  rw [parse_arrete]
  simp only [hp, Bool.not_true, if_false]
  rw [runPages_first_error rfl hb hex]
  rfl

/-- Witness for C7 at a concrete document whose address build fails. -/
theorem C7_coherence_aborts_witness :
    extract_adresses_commune envC7 "f" "a" (hintOf envC7 "f" ["a"]) = .error "incoherent address" ∧
    parse_arrete envC7 "f" "u" ["a"] = .error "incoherent address" :=
  C7_coherence_aborts envC7 "f" "u" ["a"] "a" "incoherent address"
    (fun _ _ => ⟨none, rfl⟩) (fun _ _ _ _ _ _ => rfl) rfl rfl
    ⟨{ adresse_brute := "z", adresses := [candX] }, [], rfl, by decide⟩

theorem processPage_notif_nodup {env : Env} {fn_pdf url : String} {hint : Option String}
    {s st : LoopState} {b : String}
    (h : processPage env fn_pdf url hint s b = .ok st)
    (hn : s.proprios.Nodup ∧ s.syndics.Nodup ∧ s.gests.Nodup) :
    st.proprios.Nodup ∧ st.syndics.Nodup ∧ st.gests.Nodup := by
  by_cases hb : b.isEmpty
  · rw [processPage_empty hb] at h
    injection h with h
    exact h ▸ hn
  · obtain ⟨s1, h1, rfl⟩ := processPage_ok_elim (by simpa using hb) h
    obtain ⟨-, hp2, hs2, hg2, -⟩ := stepAdresses_pure h1
    simp only [stepParcelles_proprios, stepParcelles_syndics, stepParcelles_gests,
      stepNotifies_proprios, stepNotifies_syndics, stepNotifies_gests,
      stepArretes_proprios, stepArretes_syndics, stepArretes_gests, hp2, hs2, hg2]
    exact ⟨nodup_addDet _ _ hn.1, nodup_addDet _ _ hn.2.1, nodup_addDet _ _ hn.2.2⟩

theorem processPage_notif_mono {env : Env} {fn_pdf url : String} {hint : Option String}
    {s st : LoopState} {b : String}
    (h : processPage env fn_pdf url hint s b = .ok st) :
    (∀ x ∈ s.proprios, x ∈ st.proprios) ∧ (∀ x ∈ s.syndics, x ∈ st.syndics) ∧
    (∀ x ∈ s.gests, x ∈ st.gests) := by
  by_cases hb : b.isEmpty
  · rw [processPage_empty hb] at h
    injection h with h
    subst h
    exact ⟨fun x hx => hx, fun x hx => hx, fun x hx => hx⟩
  · obtain ⟨s1, h1, rfl⟩ := processPage_ok_elim (by simpa using hb) h
    obtain ⟨-, hp2, hs2, hg2, -⟩ := stepAdresses_pure h1
    simp only [stepParcelles_proprios, stepParcelles_syndics, stepParcelles_gests,
      stepNotifies_proprios, stepNotifies_syndics, stepNotifies_gests,
      stepArretes_proprios, stepArretes_syndics, stepArretes_gests, hp2, hs2, hg2]
    exact ⟨fun x hx => mem_addDet_of_mem _ _ hx, fun x hx => mem_addDet_of_mem _ _ hx,
      fun x hx => mem_addDet_of_mem _ _ hx⟩

theorem runPages_notif_mono {env : Env} {fn_pdf url : String} {hint : Option String} :
    ∀ {bodies : List String} {s st : LoopState},
      runPages env fn_pdf url hint s bodies = .ok st →
      (∀ x ∈ s.proprios, x ∈ st.proprios) ∧ (∀ x ∈ s.syndics, x ∈ st.syndics) ∧
      (∀ x ∈ s.gests, x ∈ st.gests) := by
  intro bodies
  induction bodies with
  | nil =>
    intro s st h
    rw [runPages_nil] at h
    injection h with h
    subst h
    exact ⟨fun x hx => hx, fun x hx => hx, fun x hx => hx⟩
  | cons b bs ih =>
    intro s st h
    obtain ⟨s1, hpp, hrest⟩ := runPages_cons_ok h
    obtain ⟨m1, m2, m3⟩ := processPage_notif_mono hpp
    obtain ⟨n1, n2, n3⟩ := ih hrest
    exact ⟨fun x hx => n1 x (m1 x hx), fun x hx => n2 x (m2 x hx), fun x hx => n3 x (m3 x hx)⟩

theorem processPage_notif_add {env : Env} {fn_pdf url : String} {hint : Option String}
    {s st : LoopState} {b : String}
    (hb : b.isEmpty = false)
    (h : processPage env fn_pdf url hint s b = .ok st) :
    (∀ p, env.get_proprio b = some p → env.normalize_string p ∈ st.proprios) ∧
    (∀ p, env.get_syndic b = some p → env.normalize_string p ∈ st.syndics) ∧
    (∀ p, env.get_gest b = some p → env.normalize_string p ∈ st.gests) := by
  obtain ⟨s1, h1, rfl⟩ := processPage_ok_elim hb h
  simp only [stepParcelles_proprios, stepParcelles_syndics, stepParcelles_gests,
    stepNotifies_proprios, stepNotifies_syndics, stepNotifies_gests,
    stepArretes_proprios, stepArretes_syndics, stepArretes_gests]
  refine ⟨fun p hp => ?_, fun p hp => ?_, fun p hp => ?_⟩ <;>
    · rw [hp]
      exact mem_addToSet_self _ _

theorem runPages_detection_mem {env : Env} {fn_pdf url : String} {hint : Option String} :
    ∀ {bodies : List String} {s st : LoopState},
      runPages env fn_pdf url hint s bodies = .ok st →
      ∀ b ∈ bodies, b.isEmpty = false →
        (∀ p, env.get_proprio b = some p → env.normalize_string p ∈ st.proprios) ∧
        (∀ p, env.get_syndic b = some p → env.normalize_string p ∈ st.syndics) ∧
        (∀ p, env.get_gest b = some p → env.normalize_string p ∈ st.gests) := by
  intro bodies
  induction bodies with
  | nil => intro s st _ b hb; exact absurd hb (List.not_mem_nil b)
  | cons b0 bs ih =>
    intro s st h b hb hbf
    obtain ⟨s1, hpp, hrest⟩ := runPages_cons_ok h
    rcases List.mem_cons.mp hb with rfl | hb
    · obtain ⟨a1, a2, a3⟩ := processPage_notif_add hbf hpp
      obtain ⟨n1, n2, n3⟩ := runPages_notif_mono hrest
      exact ⟨fun p hp => n1 _ (a1 p hp), fun p hp => n2 _ (a2 p hp), fun p hp => n3 _ (a3 p hp)⟩
    · exact ih hrest b hb hbf

/-- Claim C8: the notified-party accumulators are deduplicating sets keyed
on the normalised string: any detection on any non-empty page contributes
exactly one entry (count 1) to its set, so duplicate detections across pages
collapse. -/
theorem C8_notified_dedup (env : Env) (fn_pdf url : String) (pages : List String)
    (st : LoopState)
    (hr : runPages env fn_pdf url (hintOf env fn_pdf pages) (initState env fn_pdf pages)
      (bodiesOf env fn_pdf pages) = .ok st) :
    ∀ b ∈ bodiesOf env fn_pdf pages, b.isEmpty = false →
      (∀ p, env.get_proprio b = some p → st.proprios.count (env.normalize_string p) = 1) ∧
      (∀ p, env.get_syndic b = some p → st.syndics.count (env.normalize_string p) = 1) ∧
      (∀ p, env.get_gest b = some p → st.gests.count (env.normalize_string p) = 1) := by
  have hnodup : st.proprios.Nodup ∧ st.syndics.Nodup ∧ st.gests.Nodup := by
    refine runPages_inv (fun x => x.proprios.Nodup ∧ x.syndics.Nodup ∧ x.gests.Nodup)
      (fun s b s1 hP hpp => processPage_notif_nodup hpp hP) ?_ hr
    exact ⟨List.nodup_nil, List.nodup_nil, List.nodup_nil⟩
  intro b hbm hbf
  obtain ⟨m1, m2, m3⟩ := runPages_detection_mem hr b hbm hbf
  exact ⟨fun p hp => List.count_eq_one_of_mem hnodup.1 (m1 p hp),
         fun p hp => List.count_eq_one_of_mem hnodup.2.1 (m2 p hp),
         fun p hp => List.count_eq_one_of_mem hnodup.2.2 (m3 p hp)⟩

/-- Witness for C8 with the same owner detected on two pages: the single
accumulated entry has count one. -/
theorem C8_notified_dedup_witness :
    stC8.proprios.count (envC8.normalize_string "Dupont") = 1 :=
  (C8_notified_dedup envC8 "f" "u" ["p1", "p2"] stC8 rfl "p1" (by decide) rfl).1 "Dupont" rfl

theorem runPages_notif_none {env : Env} {fn_pdf url : String} {hint : Option String} :
    ∀ {bodies : List String} {s st : LoopState},
      (∀ b ∈ bodies, env.get_proprio b = none ∧ env.get_syndic b = none ∧ env.get_gest b = none) →
      runPages env fn_pdf url hint s bodies = .ok st →
      st.proprios = s.proprios ∧ st.syndics = s.syndics ∧ st.gests = s.gests := by
  intro bodies
  induction bodies with
  | nil =>
    intro s st _ h
    rw [runPages_nil] at h
    injection h with h
    subst h
    exact ⟨rfl, rfl, rfl⟩
  | cons b0 bs ih =>
    intro s st hnone h
    obtain ⟨s1, hpp, hrest⟩ := runPages_cons_ok h
    have hs1 : s1.proprios = s.proprios ∧ s1.syndics = s.syndics ∧ s1.gests = s.gests := by
      by_cases hb : b0.isEmpty
      · rw [processPage_empty hb] at hpp
        injection hpp with hpp
        subst hpp
        exact ⟨rfl, rfl, rfl⟩
      · obtain ⟨s2, h1, rfl⟩ := processPage_ok_elim (by simpa using hb) hpp
        obtain ⟨-, hp2, hs2, hg2, -⟩ := stepAdresses_pure h1
        obtain ⟨d1, d2, d3⟩ := hnone b0 (by simp)
        simp only [stepParcelles_proprios, stepParcelles_syndics, stepParcelles_gests,
          stepNotifies_proprios, stepNotifies_syndics, stepNotifies_gests,
          stepArretes_proprios, stepArretes_syndics, stepArretes_gests, d1, d2, d3,
          addDet, hp2, hs2, hg2]
        exact ⟨trivial, trivial, trivial⟩
    obtain ⟨r1, r2, r3⟩ := ih (fun x hx => hnone x (by simp [hx])) hrest
    exact ⟨r1.trans hs1.1, r2.trans hs1.2.1, r3.trans hs1.2.2⟩

theorem finalizeDoc_notifies (fn_pdf url : String) (st : LoopState) :
    (finalizeDoc fn_pdf url st).notifies =
      [{ id_proprio := st.proprios.head?, proprio := "TODO_proprio",
         id_syndic := st.syndics.head?, syndic := "TODO_syndic",
         id_gest := st.gests.head?, gest := "TODO_gest",
         codeinsee := st.codeinsee }] := rfl

theorem finalizeDoc_adresses (fn_pdf url : String) (st : LoopState) :
    (finalizeDoc fn_pdf url st).adresses = st.adresses := rfl

/-- Claim C9: every document that reaches finalisation yields exactly one
notified-parties record; when no owner, syndic or manager was ever detected
its id fields are `None` and it still carries the document INSEE code (the
one fixed from the first resolved address, or `None`). -/
theorem C9_single_notified (env : Env) (fn_pdf url : String) (pages : List String)
    (d : DocData)
    (hok : parse_arrete env fn_pdf url pages = .ok d)
    (hp : pages.any (fun p => !p.isEmpty) = true) :
    d.notifies.length = 1 ∧
    ((∀ b ∈ bodiesOf env fn_pdf pages,
        env.get_proprio b = none ∧ env.get_syndic b = none ∧ env.get_gest b = none) →
      d.notifies = [{ id_proprio := none, proprio := "TODO_proprio", id_syndic := none,
                      syndic := "TODO_syndic", id_gest := none, gest := "TODO_gest",
                      codeinsee := d.adresses.head?.bind (fun a => a.codeinsee) }]) := by
  obtain ⟨st, hr, rfl⟩ := parse_arrete_elim hp hok
  refine ⟨rfl, ?_⟩
  intro hnone
  obtain ⟨e1, e2, e3⟩ := runPages_notif_none hnone hr
  have h2 := runPages_addr_inv (s := initState env fn_pdf pages) ⟨rfl, rfl⟩ hr
  have hpr : st.proprios = [] := e1
  have hsy : st.syndics = [] := e2
  have hge : st.gests = [] := e3
  rw [finalizeDoc_notifies, finalizeDoc_adresses, hpr, hsy, hge, h2.1]
  rfl

/-- Witness for C9 on a concrete document with no detections. -/
theorem C9_single_notified_witness :
    docC9.notifies.length = 1 ∧
    ((∀ b ∈ bodiesOf envC3 "f" ["a"],
        envC3.get_proprio b = none ∧ envC3.get_syndic b = none ∧ envC3.get_gest b = none) →
      docC9.notifies = [{ id_proprio := none, proprio := "TODO_proprio", id_syndic := none,
                          syndic := "TODO_syndic", id_gest := none, gest := "TODO_gest",
                          codeinsee := docC9.adresses.head?.bind (fun a => a.codeinsee) }]) :=
  C9_single_notified envC3 "f" "u" ["a"] docC9 rfl rfl

/-- Claim C10: every parcel output row is tagged with the document-level
final INSEE code — the one fixed from the first resolved address, or absent
when no address was resolved — regardless of which page the parcel was
detected on. -/
theorem C10_parcel_codeinsee (env : Env) (fn_pdf url : String) (pages : List String)
    (d : DocData)
    (hok : parse_arrete env fn_pdf url pages = .ok d) :
    ∀ p ∈ d.parcelles, p.codeinsee = d.adresses.head?.bind (fun a => a.codeinsee) := by
  cases hp : pages.any (fun p => !p.isEmpty) with
  | false =>
    rw [parse_arrete] at hok
    simp only [hp, Bool.not_false, if_true] at hok
    injection hok with hok
    subst hok
    intro p hp2
    exact absurd hp2 (List.not_mem_nil p)
  | true =>
    obtain ⟨st, hr, rfl⟩ := parse_arrete_elim hp hok
    have h2 := runPages_addr_inv (s := initState env fn_pdf pages) ⟨rfl, rfl⟩ hr
    intro p hp2
    rw [show (finalizeDoc fn_pdf url st).parcelles =
      st.parcelles.map (fun x => { ref_cad := x, codeinsee := st.codeinsee }) from rfl] at hp2
    obtain ⟨x, hx, rfl⟩ := List.mem_map.mp hp2
    exact h2.1

/-- Witness for C10: the parcel detected on page 1 (before any address was
resolved) is tagged with the INSEE code resolved on page 2. -/
theorem C10_parcel_codeinsee_witness :
    Parcelle.codeinsee { ref_cad := "P1", codeinsee := some "13201" } =
      docC10.adresses.head?.bind (fun a => a.codeinsee) :=
  C10_parcel_codeinsee envC10 "f" "u" ["a", "b"] docC10 rfl
    { ref_cad := "P1", codeinsee := some "13201" } (by decide)

/-- Witness for C6 on two concrete documents with equal span sequences. -/
theorem C6_scalar_first_match_witness :
    docC6.arretes.map (fun a => (a.date, a.num_arr, a.nom_arr)) =
      [(((spansOf envC6 "f" ["p1", "x"]).find? (fun x => x.span_typ == "arr_date")).map
          (fun x => envC6.normalize_string (envC6.process_date_brute x.span_txt)),
        ((spansOf envC6 "f" ["p1", "x"]).find? (fun x => x.span_typ == "num_arr")).map
          (fun x => envC6.normalize_string x.span_txt),
        ((spansOf envC6 "f" ["p1", "x"]).find? (fun x => x.span_typ == "nom_arr")).map
          (fun x => envC6.normalize_string x.span_txt))] ∧
    docC6b.arretes.map (fun a => (a.date, a.num_arr, a.nom_arr)) =
      docC6.arretes.map (fun a => (a.date, a.num_arr, a.nom_arr)) :=
  C6_scalar_first_match envC6 "f" "u" ["p1", "x"] ["p1", "y"] docC6 docC6b rfl rfl rfl rfl rfl
